import Mathlib

/-!
# Verification of the EfficientDet repository's loss functions and model orchestration

This file gives a shallow embedding, over exact real numbers, of
`loss_functions.py` (focal loss, Huber loss, and the two Keras loss classes
`EfficientDetFocalLoss` / `EfficientDetHuberLoss`) and of the construction and
forward-call logic of the `EfficientDet` model in `efficientdet.py`, and proves
the specified properties about them.

Tensors are modelled as nested lists of reals:
a rank-1 tensor is `List ℝ`, rank-2 is `List (List ℝ)`, rank-3 is
`List (List (List ℝ))`.  TensorFlow reductions become list sums and means,
`tf.where`/`tf.gather_nd` over matching index sets become list filters
(in the same row-major order), and elementwise kernels become functions `ℝ → ℝ`.
-/

namespace EffDet

noncomputable section

abbrev T1 := List ℝ
abbrev T2 := List T1
abbrev T3 := List T2

/-- Elementwise logistic sigmoid, `tf.sigmoid`. -/
def sigmoid (x : ℝ) : ℝ := 1 / (1 + Real.exp (-x))

/-- Clipping, `tf.clip_by_value t lo hi = min (max t lo) hi`, applied elementwise. -/
def clipByValue (x lo hi : ℝ) : ℝ := min (max x lo) hi

/-- The clipping constant `epsilon = 1e-6` of `focal_loss`
(`loss_functions.py` line 12). -/
def focalEpsilon : ℝ := 1e-6

/-- Per-element focal loss, from `focal_loss` (`loss_functions.py` lines 7-22):
optionally apply a sigmoid, clip into `[epsilon, 1-epsilon]`, then
`-alpha_t * (1 - p_t)^gamma * log p_t` with the `tf.where (y_true == 1)`
selections for `alpha_t` and `p_t`.  The exponentiation is real-valued
(`tf.pow` with float exponent). -/
def focalElem (gamma alpha : ℝ) (from_logits : Bool) (yt yp : ℝ) : ℝ :=
  let p0 : ℝ := if from_logits then sigmoid yp else yp;
  let p : ℝ := clipByValue p0 focalEpsilon (1 - focalEpsilon);
  let alphaT : ℝ := (if yt = 1 then alpha else 1 - alpha);
  let pt : ℝ := (if yt = 1 then p else 1 - p);
  -alphaT * (1 - pt) ^ gamma * Real.log pt

/-- The function `focal_loss` (`loss_functions.py` lines 7-28) on a rank-1 tensor, along the
default `reduction = 'sum'` path: elementwise focal loss summed with
`tf.reduce_sum`.  Defaults `gamma = 1.5`, `alpha = 0.25`,
`from_logits = False` as in the source. -/
def focal_loss (y_true y_pred : T1) (gamma : ℝ := 1.5) (alpha : ℝ := 0.25)
    (from_logits : Bool := false) : ℝ :=
  ((y_true.zip y_pred).map (fun q => focalElem gamma alpha from_logits q.1 q.2)).sum

/-- Per-coordinate Huber loss, from `huber_loss` (`loss_functions.py`
lines 36-42): error `y_true - y_pred`; `0.5*e^2` when `|e| < clip_delta`,
else `clip_delta * (|e| - 0.5*clip_delta)`. -/
def huberCoord (clip_delta yt yp : ℝ) : ℝ :=
  let error : ℝ := yt - yp;
  if |error| < clip_delta then 0.5 * error ^ 2
  else clip_delta * (|error| - 0.5 * clip_delta)

/-- Mean of a rank-1 tensor (`tf.reduce_mean` along an axis). -/
def listMean (l : T1) : ℝ := l.sum / l.length

/-- The function `huber_loss` (`loss_functions.py` lines 32-49) on a rank-2 tensor
`[anchors, coords]`, along the default `reduction = 'sum'` path: per-coordinate
Huber loss, `tf.reduce_mean` over the last axis, then `tf.reduce_sum` over
anchors.  Default `clip_delta = 1.0`. -/
def huber_loss (y_true y_pred : T2) (clip_delta : ℝ := 1.0) : ℝ :=
  ((y_true.zip y_pred).map
    (fun r => listMean ((r.1.zip r.2).map (fun q => huberCoord clip_delta q.1 q.2)))).sum

/-- The anchor state stored in the last element of a ground-truth row
(`y_true[:, :, -1]`). -/
def rowState (r : T1) : ℝ := r.getLastD 0

/-- The class-label (or box-target) part of a ground-truth row
(`y_true[:, :, :-1]`). -/
def rowLabels (r : T1) : T1 := r.dropLast

/-- All `(y_true row, y_pred row)` pairs of a batch in row-major order: the
order in which `tf.where` over `[batch, anchor]` indices enumerates them and
`tf.gather_nd` gathers them. -/
def anchorPairs (y_true y_pred : T3) : List (T1 × T1) :=
  ((y_true.zip y_pred).map (fun b => b.1.zip b.2)).flatten

/-- Keras backend clipping constant `1e-7` used inside the external
`tfa.losses.SigmoidFocalCrossEntropy`. -/
def kerasEpsilon : ℝ := 1e-7

/-- Per-element sigmoid focal cross-entropy.  Models the external library call
`tfa.losses.SigmoidFocalCrossEntropy` (`loss_functions.py` line 60) with its
default `from_logits=False`: the prediction is clipped by the Keras backend,
`ce` is the binary cross-entropy, and the focal modulation is
`alpha_t * (1 - p_t)^gamma`. -/
def sigmoidFocalCEElem (alpha gamma yt yp : ℝ) : ℝ :=
  let p : ℝ := clipByValue yp kerasEpsilon (1 - kerasEpsilon);
  let ce : ℝ := -(yt * Real.log p + (1 - yt) * Real.log (1 - p));
  let pt : ℝ := (yt * p + (1 - yt) * (1 - p));
  let alphaT : ℝ := (yt * alpha + (1 - yt) * (1 - alpha));
  alphaT * (1 - pt) ^ gamma * ce

/-- One gathered row's contribution to `tfa.losses.SigmoidFocalCrossEntropy`
under `Reduction.SUM`: the elementwise losses of the row summed over classes. -/
def sigmoidFocalCERow (alpha gamma : ℝ) (yt yp : T1) : ℝ :=
  ((yt.zip yp).map (fun q => sigmoidFocalCEElem alpha gamma q.1 q.2)).sum

/-- The method `EfficientDetFocalLoss.call` (`loss_functions.py` lines 62-79): split the
state channel off `y_true`, gather the rows whose state is not `-1`, sum their
sigmoid-focal-cross-entropy (`Reduction.SUM`), and divide by
`max(1, number of rows with state 1)`. -/
def EfficientDetFocalLossCall (alpha gamma : ℝ) (y_true y_pred : T3) : ℝ :=
  let pairs := anchorPairs y_true y_pred;
  let notIgnore := pairs.filter (fun q => decide (rowState q.1 ≠ -1));
  let trueIdx := pairs.filter (fun q => decide (rowState q.1 = 1));
  let normalizer : ℝ := (max 1 (trueIdx.length : ℝ));
  (notIgnore.map (fun q => sigmoidFocalCERow alpha gamma (rowLabels q.1) q.2)).sum
    / normalizer

/-- Per-coordinate Huber loss of the external `tf.losses.Huber`
(`loss_functions.py` line 87): quadratic branch when `|error| <= delta`
(the Keras kernel uses a non-strict comparison), linear branch otherwise. -/
def kerasHuberCoord (delta yt yp : ℝ) : ℝ :=
  let error : ℝ := yt - yp;
  if |error| ≤ delta then 0.5 * error ^ 2
  else delta * |error| - 0.5 * delta ^ 2

/-- One gathered row's contribution to `tf.losses.Huber` under
`Reduction.SUM`: the per-coordinate losses averaged over the last axis. -/
def kerasHuberRow (delta : ℝ) (yt yp : T1) : ℝ :=
  listMean ((yt.zip yp).map (fun q => kerasHuberCoord delta q.1 q.2))

/-- The method `EfficientDetHuberLoss.call` (`loss_functions.py` lines 89-106): split the
state channel off `y_true`, gather only the rows whose state equals `1`, sum
their Huber loss (`Reduction.SUM`), divide by
`max(1, number of rows with state 1) * 4`, and scale by `50`. -/
def EfficientDetHuberLossCall (delta : ℝ) (y_true y_pred : T3) : ℝ :=
  let pairs := anchorPairs y_true y_pred;
  let trueIdx := pairs.filter (fun q => decide (rowState q.1 = 1));
  let normalizer : ℝ := (max 1 (trueIdx.length : ℝ) * 4);
  50 * ((trueIdx.map (fun q => kerasHuberRow delta (rowLabels q.1) q.2)).sum
    / normalizer)

/-- Hyperparameters stored in a checkpoint's `hp.json`
(`efficientdet.py` lines 45-53). -/
structure CheckpointParams where
  n_classes : ℕ
  bidirectional : Bool
  efficientdet : ℕ

/-- The compound-scaling configuration `config.EfficientDetCompudScaling`.
Modelled from the spec: the `config` module is not under `src/`; the spec
treats the backbone/neck scaling as an external collaborator ("ordinary layered
tensor transforms"), so only its dependence on the scaling coefficient `D` is
modelled, not the numeric coefficient tables. -/
structure ScalingConfig where
  B : ℕ
  Wbifpn : ℕ
  Dbifpn : ℕ
  Dclass : ℕ

/-- Modelled from the spec: the scaling configuration derived from `D`
(`config.EfficientDetCompudScaling(D=D)`, external to `src/`). -/
def compoundScaling (D : ℕ) : ScalingConfig := ⟨D, D, D, D⟩

/-- The EfficientNet backbone sub-layer, recorded by its construction
parameters (`efficientdet.py` lines 58-63); its tensor transform is external. -/
structure Backbone where
  B : ℕ
  weights : Option String
  trainable : Bool

/-- The BiFPN neck sub-layer, by construction parameters
(`efficientdet.py` line 66). -/
structure Neck where
  W : ℕ
  depth : ℕ

/-- The RetinaNet classification head, by construction parameters
(`efficientdet.py` line 73). -/
structure ClassHead where
  W : ℕ
  depth : ℕ
  num_classes : ℕ

/-- The RetinaNet box-regression head, by construction parameters
(`efficientdet.py` line 74). -/
structure BBHead where
  W : ℕ
  depth : ℕ

/-- The `FilterDetections` inference layer (`efficientdet.py` line 79).
Its filtering computation lives outside `src/`; the model records its mutable
`score_threshold`. -/
structure FilterDetections where
  score_threshold : ℝ

/-- The constructed `EfficientDet` model state: the sub-layers and flags set up
by `EfficientDet.__init__` (`efficientdet.py` lines 21-92). -/
structure EfficientDet where
  config : ScalingConfig
  backbone : Backbone
  neck : Neck
  num_classes : ℕ
  class_head : ClassHead
  bb_head : BBHead
  training_mode : Bool
  filter_detections : FilterDetections

/-- Tensor computations that `__init__` may perform: building the network on a
symbolic input (`self.build`, line 85) and loading checkpoint weights
(`self.load_weights`, line 86).  Declaring layers performs no tensor work. -/
inductive TensorStep where
  | buildNetwork : TensorStep
  | loadWeights : TensorStep
deriving DecidableEq

/-- The arguments of `EfficientDet.__init__` (`efficientdet.py` line 22). -/
structure InitArgs where
  num_classes : Option ℕ
  D : ℕ
  bidirectional : Bool
  freeze_backbone : Bool
  score_threshold : ℝ
  weights : Option String
  custom_head_classifier : Bool
  training_mode : Bool

/-- The set `_AVAILABLE_WEIGHTS` (`efficientdet.py` line 16). -/
def availableWeights : List (Option String) := [none, some "imagenet", some "D0-VOC"]

/-- The constructor `EfficientDet.__init__` (`efficientdet.py` lines 21-92), as a function from
the arguments (plus the checkpoint hyperparameters that `hp.json` would
supply) to the tensor computations performed and either a `ValueError` message
or the constructed model.  The checks and assignments follow the source order:
the `custom_head_classifier`/`num_classes` check, the available-weights check,
the from-scratch custom-head check, the checkpoint class-count check and
hyperparameter override, layer declaration, the unconditional `num_classes`
check (line 69), and finally—only in the checkpoint branch—network building and
weight loading followed by the custom-head replacement. -/
def EfficientDetInit (args : InitArgs) (params : CheckpointParams) :
    List TensorStep × Except String EfficientDet :=
  if args.custom_head_classifier = true ∧ args.num_classes = none then
    ([], .error "If include_top is False, you must specify the num_classes")
  else if args.weights ∉ availableWeights then
    ([], .error "Weights not available.")
  else if (args.weights = some "imagenet" ∨ args.weights = none)
      ∧ args.custom_head_classifier = true then
    ([], .error "Custom Head does not make sense when training the model from scratch.")
  else
    let fromCheckpoint := (args.weights ≠ some "imagenet" ∧ args.weights ≠ none);
    if fromCheckpoint ∧ args.num_classes ≠ none ∧ args.custom_head_classifier = false
        ∧ args.num_classes ≠ some params.n_classes then
      ([], .error "Weights num classes are different from num_classes argument")
    else
      let D := (if fromCheckpoint then params.efficientdet else args.D);
      let cfg := compoundScaling D;
      let backboneWeights := (if args.weights = some "imagenet"
        then some "imagenet" else (none : Option String));
      let bb : Backbone := ⟨cfg.B, backboneWeights, ¬args.freeze_backbone⟩;
      let nk : Neck := ⟨cfg.Wbifpn, cfg.Dbifpn⟩;
      match args.num_classes with
      | none => ([], .error "You have to specify the number of classes.")
      | some nc =>
        let model : EfficientDet :=
          { config := cfg
            backbone := bb
            neck := nk
            num_classes := nc
            class_head := ⟨cfg.Wbifpn, cfg.Dclass, nc⟩
            bb_head := ⟨cfg.Wbifpn, cfg.Dclass⟩
            training_mode := args.training_mode
            filter_detections := ⟨args.score_threshold⟩ };
        if fromCheckpoint then
          ([.buildNetwork, .loadWeights],
            .ok (if args.custom_head_classifier = true then
              { model with class_head := ⟨cfg.Wbifpn, cfg.Dclass, nc⟩ }
            else model))
        else ([], .ok model)

/-- The `score_threshold` property getter (`efficientdet.py` lines 94-96). -/
def getScoreThreshold (m : EfficientDet) : ℝ := m.filter_detections.score_threshold

/-- The `score_threshold` property setter (`efficientdet.py` lines 98-100):
stores the value on the owned `FilterDetections` layer. -/
def setScoreThreshold (m : EfficientDet) (v : ℝ) : EfficientDet :=
  { m with filter_detections := { score_threshold := v } }

/-- The tensor transforms of the external sub-networks (backbone, BiFPN neck,
heads, detection filter), abstracted as functions: the repository treats them
as collaborators producing per-level feature maps and per-anchor predictions.
Each takes the effective per-call `training` flag the model passes down; the
filter takes the model's current score threshold. -/
structure NetworkSem where
  backboneApply : T3 → Bool → List T3
  neckApply : List T3 → Bool → List T3
  bbHeadApply : T3 → Bool → T3
  classHeadApply : T3 → Bool → T3
  filterApply : ℝ → T3 → T3 → T3 → T3 × T2 × T2

/-- Concatenation `tf.concat(xs, axis=1)` on rank-3 tensors sharing the batch dimension. -/
def concatAxis1 : List T3 → T3
  | [] => []
  | [t] => t
  | t :: ts => List.zipWith (· ++ ·) t (concatAxis1 ts)

/-- The result of `EfficientDet.call`: either the raw concatenated
`(bboxes, class_scores)` training output or the filtered detections. -/
inductive CallOut where
  | trainingOut : T3 → T3 → CallOut
  | inferenceOut : T3 × T2 × T2 → CallOut

/-- Holds exactly on the raw (training-mode) output. -/
def CallOut.isRaw : CallOut → Prop
  | .trainingOut _ _ => True
  | .inferenceOut _ => False

/-- The forward pass `EfficientDet.call` (`efficientdet.py` lines 102-124): combine the per-call
`training` flag with the model flag (`training = training and
self.training_mode`, line 103), run backbone, neck and the two heads per
feature level, concatenate along the anchor axis, and return the raw tensors
when `self.training_mode` holds, the filtered detections otherwise. -/
def EfficientDetCall (sem : NetworkSem) (m : EfficientDet) (images : T3)
    (training : Bool) : CallOut :=
  let training := training && m.training_mode;
  let features := sem.backboneApply images training;
  let bifnpFeatures := sem.neckApply features training;
  let bboxesL := bifnpFeatures.map (fun bf => sem.bbHeadApply bf training);
  let classScoresL := bifnpFeatures.map (fun bf => sem.classHeadApply bf training);
  let bboxes := concatAxis1 bboxesL;
  let classScores := concatAxis1 classScoresL;
  if m.training_mode then .trainingOut bboxes classScores
  else .inferenceOut
    (sem.filterApply m.filter_detections.score_threshold images bboxes classScores)

/-- A trivial instantiation of the external sub-networks, used for concrete
evaluations of the forward call. -/
def trivialSem : NetworkSem :=
  ⟨fun _ _ => [], fun _ _ => [], fun _ _ => [], fun _ _ => [],
   fun _ _ _ _ => ([], [], [])⟩

/-- A concrete model whose `training_mode` flag is set. -/
def trainingModel : EfficientDet :=
  { config := ⟨0, 0, 0, 0⟩
    backbone := ⟨0, none, true⟩
    neck := ⟨0, 0⟩
    num_classes := 1
    class_head := ⟨0, 0, 1⟩
    bb_head := ⟨0, 0⟩
    training_mode := true
    filter_detections := ⟨0⟩ }

/-- A concrete model whose `training_mode` flag is clear. -/
def inferenceModel : EfficientDet := { trainingModel with training_mode := false }

/-- Every pair gathered by `anchorPairs` takes its ground-truth row from some
batch element of `y_true`. -/
theorem exists_row_of_mem_anchorPairs {yt yp : T3} {q : T1 × T1}
    (hq : q ∈ anchorPairs yt yp) : ∃ b ∈ yt, q.1 ∈ b := by
  rcases List.mem_flatten.mp hq with ⟨l, hl, hql⟩
  rcases List.mem_map.mp hl with ⟨b, hb, rfl⟩
  exact ⟨b.1, (List.of_mem_zip hb).1, (List.of_mem_zip hql).1⟩

/-- Appending one batch element to both tensors appends its rows to the
gathered pairs. -/
theorem anchorPairs_append (yt yp : T3) (ts ps : T2)
    (hlen : yt.length = yp.length) :
    anchorPairs (yt ++ [ts]) (yp ++ [ps]) = anchorPairs yt yp ++ ts.zip ps := by
  unfold anchorPairs
  rw [List.zip_append hlen, List.map_append, List.flatten_append]
  simp

/-- C6: for every input whose anchor-state channel contains only `-1`, both
`EfficientDetFocalLoss.call` and `EfficientDetHuberLoss.call` evaluate to `0` —
a finite, non-negative scalar — because the gathered row sets are empty and the
normalizer is floored at `1` (respectively `1 * 4`), so no division by zero
occurs. -/
theorem losses_zero_when_all_ignored (alpha gamma delta : ℝ) (yt yp : T3)
    (hall : ∀ b ∈ yt, ∀ r ∈ b, rowState r = -1) :
    EfficientDetFocalLossCall alpha gamma yt yp = 0 ∧
    EfficientDetHuberLossCall delta yt yp = 0 ∧
    0 ≤ EfficientDetFocalLossCall alpha gamma yt yp ∧
    0 ≤ EfficientDetHuberLossCall delta yt yp := by
  have hq : ∀ q ∈ anchorPairs yt yp, rowState q.1 = -1 := by
    intro q hqmem
    rcases exists_row_of_mem_anchorPairs hqmem with ⟨b, hb, hr⟩
    exact hall b hb q.1 hr
  have h1 : (anchorPairs yt yp).filter (fun q => !decide (rowState q.1 = -1)) = [] := by
    rw [List.filter_eq_nil_iff]
    intro q hqmem
    simp [hq q hqmem]
  have h2 : (anchorPairs yt yp).filter (fun q => decide (rowState q.1 = 1)) = [] := by
    rw [List.filter_eq_nil_iff]
    intro q hqmem
    rw [hq q hqmem]
    norm_num
  have hf : EfficientDetFocalLossCall alpha gamma yt yp = 0 := by
    unfold EfficientDetFocalLossCall
    simp [h1, h2]
  have hh : EfficientDetHuberLossCall delta yt yp = 0 := by
    unfold EfficientDetHuberLossCall
    simp [h2]
  exact ⟨hf, hh, by rw [hf], by rw [hh]⟩

/-- C6 witness: a concrete batch with two anchors, both with state `-1`. -/
theorem losses_zero_when_all_ignored_witness :
    (∀ b ∈ [[[(0 : ℝ), -1], [5, -1]]], ∀ r ∈ b, rowState r = -1) ∧
    EfficientDetFocalLossCall (1/4) (3/2) [[[(0 : ℝ), -1], [5, -1]]] [[[1/2], [1/2]]] = 0 ∧
    EfficientDetHuberLossCall 1 [[[(0 : ℝ), -1], [5, -1]]] [[[1/2], [1/2]]] = 0 := by
  have hall : ∀ b ∈ [[[(0 : ℝ), -1], [5, -1]]], ∀ r ∈ b, rowState r = -1 := by
    intro b hb r hr
    simp only [List.mem_singleton] at hb
    subst hb
    rcases List.mem_cons.mp hr with h | h
    · rw [h]; rfl
    · rw [List.mem_singleton.mp h]; rfl
  have h := losses_zero_when_all_ignored (1/4) (3/2) 1
    [[[(0 : ℝ), -1], [5, -1]]] [[[1/2], [1/2]]] hall
  exact ⟨hall, h.1, h.2.1⟩

/-- C7: constructing the detector with `custom_head_classifier = True` and
`num_classes = None` fails at the very first coherency check with a
`ValueError`, before any tensor computation (empty tensor-step trace). -/
theorem init_rejects_custom_head_without_classes (args : InitArgs)
    (params : CheckpointParams)
    (h1 : args.custom_head_classifier = true) (h2 : args.num_classes = none) :
    EfficientDetInit args params =
      ([], .error "If include_top is False, you must specify the num_classes") := by
  unfold EfficientDetInit
  rw [if_pos ⟨h1, h2⟩]

/-- C7 witness: concrete arguments requesting a custom head with no class
count. -/
theorem init_rejects_custom_head_without_classes_witness :
    (InitArgs.mk none 0 true false 0 (some "imagenet") true false).custom_head_classifier
      = true ∧
    (InitArgs.mk none 0 true false 0 (some "imagenet") true false).num_classes = none ∧
    EfficientDetInit (InitArgs.mk none 0 true false 0 (some "imagenet") true false)
        (CheckpointParams.mk 20 true 0) =
      ([], .error "If include_top is False, you must specify the num_classes") :=
  ⟨rfl, rfl,
   init_rejects_custom_head_without_classes
     (InitArgs.mk none 0 true false 0 (some "imagenet") true false)
     (CheckpointParams.mk 20 true 0) rfl rfl⟩

/-- C10: every construction with `num_classes = None` fails with a
`ValueError` (and performs no tensor computation), whatever the other
arguments and whatever class count the checkpoint hyperparameters carry: the
checkpoint's `n_classes` is never assigned to `num_classes` before the
unconditional check. -/
theorem init_requires_num_classes (args : InitArgs) (params : CheckpointParams)
    (h : args.num_classes = none) :
    (EfficientDetInit args params).1 = [] ∧
    ∃ msg, (EfficientDetInit args params).2 = Except.error msg := by
  unfold EfficientDetInit
  split_ifs <;> simp [h]

/-- C10 witness: `num_classes = None` together with checkpoint weights
(`'D0-VOC'`) whose stored hyperparameters carry their own class count (20). -/
theorem init_requires_num_classes_witness :
    (InitArgs.mk none 0 true false 0 (some "D0-VOC") false false).num_classes = none ∧
    ((EfficientDetInit (InitArgs.mk none 0 true false 0 (some "D0-VOC") false false)
        (CheckpointParams.mk 20 true 0)).1 = [] ∧
     ∃ msg, (EfficientDetInit (InitArgs.mk none 0 true false 0 (some "D0-VOC") false false)
        (CheckpointParams.mk 20 true 0)).2 = Except.error msg) :=
  ⟨rfl,
   init_requires_num_classes
     (InitArgs.mk none 0 true false 0 (some "D0-VOC") false false)
     (CheckpointParams.mk 20 true 0) rfl⟩

/-- C8 counterexample: with the model-level `training_mode` flag set but the
per-call `training` flag `False`, the forward call still returns the raw
concatenated tensors — the claim that raw output requires both flags is false
on the code, which branches on `self.training_mode` alone. -/
theorem call_raw_despite_training_false :
    ¬ ((EfficientDetCall trivialSem trainingModel [] false).isRaw ↔
        (trainingModel.training_mode = true ∧ false = true)) := by
  intro hiff
  have hraw : (EfficientDetCall trivialSem trainingModel [] false).isRaw := by
    simp [EfficientDetCall, trainingModel, trivialSem, CallOut.isRaw, concatAxis1]
  exact absurd (hiff.mp hraw).2 (by simp)

/-- C8 amended: the forward call returns the raw concatenated per-anchor
tensors exactly when the model-level `training_mode` flag is true; in any other
case it returns the filtered detections.  The per-call `training` flag only
modulates the `training` argument passed to the sub-layers (line 103), not the
choice of output. -/
theorem call_raw_iff_training_mode (sem : NetworkSem) (m : EfficientDet)
    (images : T3) (training : Bool) :
    (EfficientDetCall sem m images training).isRaw ↔ m.training_mode = true := by
  unfold EfficientDetCall
  by_cases h : m.training_mode = true <;> simp [h, CallOut.isRaw]

/-- C9: assigning `v` to the `score_threshold` property updates only the owned
`FilterDetections` layer's threshold: reading the property returns `v`,
backbone, neck, heads, `num_classes`, `training_mode` and scaling config are
unchanged, and every subsequent inference-mode forward call invokes the
detection filter with threshold `v`. -/
theorem score_threshold_property (m : EfficientDet) (v : ℝ) :
    getScoreThreshold (setScoreThreshold m v) = v ∧
    (setScoreThreshold m v).backbone = m.backbone ∧
    (setScoreThreshold m v).neck = m.neck ∧
    (setScoreThreshold m v).class_head = m.class_head ∧
    (setScoreThreshold m v).bb_head = m.bb_head ∧
    (setScoreThreshold m v).num_classes = m.num_classes ∧
    (setScoreThreshold m v).training_mode = m.training_mode ∧
    (setScoreThreshold m v).config = m.config ∧
    ∀ (sem : NetworkSem) (images : T3) (training : Bool),
      m.training_mode = false →
        ∃ bboxes classScores,
          EfficientDetCall sem (setScoreThreshold m v) images training =
            .inferenceOut (sem.filterApply v images bboxes classScores) := by
  refine ⟨rfl, rfl, rfl, rfl, rfl, rfl, rfl, rfl, ?_⟩
  intro sem images training h
  unfold EfficientDetCall
  simp only [setScoreThreshold, h, Bool.and_false, if_false]
  exact ⟨_, _, rfl⟩

/-- C9 witness: a concrete inference-mode model with the threshold set to `5`.
-/
theorem score_threshold_property_witness :
    getScoreThreshold (setScoreThreshold inferenceModel 5) = 5 ∧
    inferenceModel.training_mode = false ∧
    ∃ bboxes classScores,
      EfficientDetCall trivialSem (setScoreThreshold inferenceModel 5) [] true =
        .inferenceOut (trivialSem.filterApply 5 [] bboxes classScores) :=
  ⟨(score_threshold_property inferenceModel 5).1, rfl,
   (score_threshold_property inferenceModel 5).2.2.2.2.2.2.2.2 trivialSem [] true rfl⟩

/-- The per-anchor-per-class focal loss exactly as the spec words it:
compute `p` (sigmoid if from logits), clip into `[epsilon, 1-epsilon]`, and
take `-(alpha_t * (1-p_t)^gamma * log p_t)` with `p_t = p` and
`alpha_t = alpha` when the label is `1`, else `1-p` and `1-alpha`
(spec-side definition, for comparison with the code-side `focalElem`). -/
def focalSpecElem (gamma alpha : ℝ) (from_logits : Bool) (y p0 : ℝ) : ℝ :=
  let p1 : ℝ := (if from_logits then sigmoid p0 else p0);
  let p : ℝ := clipByValue p1 focalEpsilon (1 - focalEpsilon);
  let pt : ℝ := (if y = 1 then p else 1 - p);
  let alphaT : ℝ := (if y = 1 then alpha else 1 - alpha);
  -(alphaT * (1 - pt) ^ gamma * Real.log pt)

/-- C1: for target labels in `{0, 1}`, the elementwise loss computed by
`focal_loss` equals the spec's formula `-alpha_t * (1-p_t)^gamma * log p_t`
(with sigmoid applied first when `from_logits`, then clipping), and the
declared defaults are `gamma = 1.5`, `alpha = 0.25`. -/
theorem focal_elem_matches_spec (gamma alpha y p : ℝ) (fl : Bool)
    (_hy : y = 0 ∨ y = 1) :
    focalElem gamma alpha fl y p = focalSpecElem gamma alpha fl y p ∧
    (∀ yt yp : T1, focal_loss yt yp = focal_loss yt yp 1.5 0.25 false) := by
  constructor
  · simp only [focalElem, focalSpecElem]
    ring
  · intro yt yp
    rfl

/-- C1 witness: the spec formula at label `1`, probability `1/2`, defaults. -/
theorem focal_elem_matches_spec_witness :
    ((1 : ℝ) = 0 ∨ (1 : ℝ) = 1) ∧
    focalElem 1.5 0.25 false 1 (1/2) = focalSpecElem 1.5 0.25 false 1 (1/2) :=
  ⟨Or.inr rfl, (focal_elem_matches_spec 1.5 0.25 1 (1/2) false (Or.inr rfl)).1⟩

/-- C5: the per-coordinate Huber branches are `0.5*e^2` for `|e| < delta` and
`delta*(|e| - 0.5*delta)` otherwise; the two branches agree where `|e| = delta`
(continuity at the boundary); per anchor the coordinate losses are averaged
over the 4 coordinates and then summed across anchors; the default
`clip_delta` is `1.0`. -/
theorem huber_loss_structure (delta : ℝ) (yt yp : T2)
    (h4 : ∀ r ∈ yt.zip yp, r.1.length = 4 ∧ r.2.length = 4) :
    (∀ t p : ℝ, huberCoord delta t p =
      (if |t - p| < delta then 0.5 * (t - p) ^ 2
       else delta * (|t - p| - 0.5 * delta))) ∧
    (∀ e : ℝ, |e| = delta → 0.5 * e ^ 2 = delta * (|e| - 0.5 * delta)) ∧
    (huber_loss yt yp delta =
      ((yt.zip yp).map (fun r =>
        ((r.1.zip r.2).map (fun q => huberCoord delta q.1 q.2)).sum / 4)).sum) ∧
    (∀ a b : T2, huber_loss a b = huber_loss a b 1.0) := by
  refine ⟨fun t p => rfl, ?_, ?_, fun a b => rfl⟩
  · intro e he
    rw [← he, ← sq_abs e]
    ring
  · unfold huber_loss
    apply congrArg
    apply List.map_congr_left
    intro r hr
    unfold listMean
    rw [List.length_map, List.length_zip, (h4 r hr).1, (h4 r hr).2]
    norm_num

/-- C5 witness: a single anchor with 4 coordinates, error `2` in the first. -/
theorem huber_loss_structure_witness :
    (∀ r ∈ ([[(0 : ℝ), 0, 0, 0]] : T2).zip ([[(2 : ℝ), 0, 0, 0]] : T2),
      r.1.length = 4 ∧ r.2.length = 4) ∧
    huber_loss [[(0 : ℝ), 0, 0, 0]] [[(2 : ℝ), 0, 0, 0]] 1 =
      (([[(0 : ℝ), 0, 0, 0]].zip [[(2 : ℝ), 0, 0, 0]]).map (fun r =>
        ((r.1.zip r.2).map (fun q => huberCoord 1 q.1 q.2)).sum / 4)).sum := by
  have h4 : ∀ r ∈ ([[(0 : ℝ), 0, 0, 0]] : T2).zip ([[(2 : ℝ), 0, 0, 0]] : T2),
      r.1.length = 4 ∧ r.2.length = 4 := by
    intro r hr
    rw [List.mem_singleton.mp hr]
    exact ⟨rfl, rfl⟩
  exact ⟨h4, (huber_loss_structure 1 _ _ h4).2.2.1⟩

/-- C3: `EfficientDetFocalLoss.call` excludes exactly the anchors with state
`-1` — the summed per-anchor-per-class loss runs over the anchors with state
`≠ -1` and is divided by `max(1, number of anchors with state 1)` — and
appending a batch element consisting only of state `-1` anchors leaves the
loss unchanged. -/
theorem focal_call_exclusions (alpha gamma : ℝ) (yt yp : T3) (ts ps : T2)
    (hlen : yt.length = yp.length) (hig : ∀ r ∈ ts, rowState r = -1) :
    (EfficientDetFocalLossCall alpha gamma yt yp =
      (((anchorPairs yt yp).filter (fun q => decide (rowState q.1 ≠ -1))).map
          (fun q => sigmoidFocalCERow alpha gamma (rowLabels q.1) q.2)).sum
        / max 1 (((anchorPairs yt yp).countP (fun q => decide (rowState q.1 = 1))
            : ℝ))) ∧
    EfficientDetFocalLossCall alpha gamma (yt ++ [ts]) (yp ++ [ps]) =
      EfficientDetFocalLossCall alpha gamma yt yp := by
  constructor
  · simp only [EfficientDetFocalLossCall, List.countP_eq_length_filter]
  · have e1 : (ts.zip ps).filter (fun q => !decide (rowState q.1 = -1)) = [] := by
      rw [List.filter_eq_nil_iff]
      intro q hq
      simp [hig q.1 (List.of_mem_zip hq).1]
    have e2 : (ts.zip ps).filter (fun q => decide (rowState q.1 = 1)) = [] := by
      rw [List.filter_eq_nil_iff]
      intro q hq
      rw [hig q.1 (List.of_mem_zip hq).1]
      norm_num
    unfold EfficientDetFocalLossCall
    simp [anchorPairs_append yt yp ts ps hlen, List.filter_append, e1, e2]

/-- C3 witness: one positive anchor plus an appended all-ignored batch
element. -/
theorem focal_call_exclusions_witness :
    ([[[(1 : ℝ), 1]]] : T3).length = ([[[(1 : ℝ)]]] : T3).length ∧
    (∀ r ∈ ([[(0 : ℝ), -1]] : T2), rowState r = -1) ∧
    EfficientDetFocalLossCall (1/4) (3/2)
        ([[[(1 : ℝ), 1]]] ++ [[[(0 : ℝ), -1]]]) ([[[(1 : ℝ)]]] ++ [[[(0 : ℝ)]]]) =
      EfficientDetFocalLossCall (1/4) (3/2) [[[(1 : ℝ), 1]]] [[[(1 : ℝ)]]] := by
  have hig : ∀ r ∈ ([[(0 : ℝ), -1]] : T2), rowState r = -1 := by
    intro r hr
    rw [List.mem_singleton.mp hr]
    rfl
  exact ⟨rfl, hig,
    (focal_call_exclusions (1/4) (3/2) [[[(1 : ℝ), 1]]] [[[(1 : ℝ)]]]
      [[(0 : ℝ), -1]] [[(0 : ℝ)]] rfl hig).2⟩

/-- C2: `EfficientDetHuberLoss.call` gathers only the anchors with state `1`:
the summed per-anchor loss runs over state-`1` anchors and is divided by
`max(1, number of state-1 anchors) * 4`, then multiplied by the fixed scale
`50`; appending a batch element with no state-`1` anchor (states `0` or `-1`
alike) leaves the loss unchanged; and — unlike the Huber gather — a state-`0`
anchor does belong to the focal loss's gathered (state `≠ -1`) set. -/
theorem huber_call_exclusions (delta : ℝ) (yt yp : T3) (ts ps : T2)
    (hlen : yt.length = yp.length) (hnp : ∀ r ∈ ts, rowState r ≠ 1) :
    (EfficientDetHuberLossCall delta yt yp =
      50 * ((((anchorPairs yt yp).filter (fun q => decide (rowState q.1 = 1))).map
          (fun q => kerasHuberRow delta (rowLabels q.1) q.2)).sum
        / (max 1 (((anchorPairs yt yp).countP (fun q => decide (rowState q.1 = 1))
            : ℝ)) * 4))) ∧
    (EfficientDetHuberLossCall delta (yt ++ [ts]) (yp ++ [ps]) =
      EfficientDetHuberLossCall delta yt yp) ∧
    (∀ q ∈ anchorPairs yt yp, rowState q.1 = 0 →
      q ∈ (anchorPairs yt yp).filter (fun q => decide (rowState q.1 ≠ -1)) ∧
      q ∉ (anchorPairs yt yp).filter (fun q => decide (rowState q.1 = 1))) := by
  refine ⟨?_, ?_, ?_⟩
  · simp only [EfficientDetHuberLossCall, List.countP_eq_length_filter]
  · have e2 : (ts.zip ps).filter (fun q => decide (rowState q.1 = 1)) = [] := by
      rw [List.filter_eq_nil_iff]
      intro q hq
      simp [hnp q.1 (List.of_mem_zip hq).1]
    unfold EfficientDetHuberLossCall
    simp [anchorPairs_append yt yp ts ps hlen, List.filter_append, e2]
  · intro q hq h0
    constructor
    · apply List.mem_filter.mpr
      refine ⟨hq, ?_⟩
      rw [h0]
      norm_num
    · intro hmem
      have := (List.mem_filter.mp hmem).2
      rw [h0] at this
      norm_num at this

/-- C2 witness: one positive anchor plus an appended batch element holding one
state-`0` and one state-`-1` anchor. -/
theorem huber_call_exclusions_witness :
    ([[[(1 : ℝ), 1]]] : T3).length = ([[[(1 : ℝ)]]] : T3).length ∧
    (∀ r ∈ ([[(0 : ℝ), 0], [0, -1]] : T2), rowState r ≠ 1) ∧
    EfficientDetHuberLossCall 1
        ([[[(1 : ℝ), 1]]] ++ [[[(0 : ℝ), 0], [0, -1]]])
        ([[[(1 : ℝ)]]] ++ [[[(0 : ℝ)], [0]]]) =
      EfficientDetHuberLossCall 1 [[[(1 : ℝ), 1]]] [[[(1 : ℝ)]]] := by
  have hnp : ∀ r ∈ ([[(0 : ℝ), 0], [0, -1]] : T2), rowState r ≠ 1 := by
    intro r hr
    rcases List.mem_cons.mp hr with h | h
    · rw [h]
      norm_num [rowState]
    · rw [List.mem_singleton.mp h]
      norm_num [rowState]
  exact ⟨rfl, hnp,
    (huber_call_exclusions 1 [[[(1 : ℝ), 1]]] [[[(1 : ℝ)]]]
      [[(0 : ℝ), 0], [0, -1]] [[(0 : ℝ)], [0]] rfl hnp).2.1⟩

/-- Evaluation `sigmoid 0 = 1/2`. -/
theorem sigmoid_zero : sigmoid 0 = 1 / 2 := by
  unfold sigmoid
  rw [neg_zero, Real.exp_zero]
  norm_num

/-- The value `sigmoid (1/2)` lies strictly above `1/2` and at most `2/3`. -/
theorem sigmoid_half_bounds : 1 / 2 < sigmoid (1 / 2) ∧ sigmoid (1 / 2) ≤ 2 / 3 := by
  have he1 : (1 : ℝ) / 2 ≤ Real.exp (-(1 / 2)) := by
    have h := Real.add_one_le_exp (-(1 / 2) : ℝ)
    linarith
  have he2 : Real.exp (-(1 / 2) : ℝ) < 1 := by
    have h := Real.exp_lt_exp.mpr (show (-(1 / 2) : ℝ) < 0 by norm_num)
    rwa [Real.exp_zero] at h
  have hd : (0 : ℝ) < 1 + Real.exp (-(1 / 2)) := by positivity
  constructor
  · have h2 : (1 : ℝ) + Real.exp (-(1 / 2)) < 2 := by linarith
    have h := one_div_lt_one_div_of_lt hd h2
    unfold sigmoid
    exact h
  · have h2 : (3 : ℝ) / 2 ≤ 1 + Real.exp (-(1 / 2)) := by linarith
    have h := one_div_le_one_div_of_le (show (0 : ℝ) < 3 / 2 by norm_num) h2
    unfold sigmoid
    calc 1 / (1 + Real.exp (-(1 / 2))) ≤ 1 / (3 / 2) := h
    _ = 2 / 3 := by norm_num

/-- Clipping into `[1e-6, 1 - 1e-6]` leaves `1/2` unchanged. -/
theorem clip_half : clipByValue (1 / 2) focalEpsilon (1 - focalEpsilon) = 1 / 2 := by
  unfold clipByValue focalEpsilon
  rw [max_eq_left (by norm_num), min_eq_left (by norm_num)]

/-- Clipping into `[1e-6, 1 - 1e-6]` leaves `sigmoid (1/2)` unchanged. -/
theorem clip_sigmoid_half :
    clipByValue (sigmoid (1 / 2)) focalEpsilon (1 - focalEpsilon) = sigmoid (1 / 2) := by
  have h1 := sigmoid_half_bounds.1
  have h2 := sigmoid_half_bounds.2
  unfold clipByValue focalEpsilon
  rw [max_eq_left (by linarith), min_eq_left (by linarith)]

/-- Evaluating `focal_loss` on singleton tensors gives the elementwise focal loss. -/
theorem focal_loss_singleton (a b gamma alpha : ℝ) (fl : Bool) :
    focal_loss [a] [b] gamma alpha fl = focalElem gamma alpha fl a b := by
  unfold focal_loss
  simp

/-- The elementwise focal loss at a positive label, `from_logits = true`. -/
theorem focalElem_one_true (gamma alpha b : ℝ) :
    focalElem gamma alpha true 1 b =
      -alpha * (1 - clipByValue (sigmoid b) focalEpsilon (1 - focalEpsilon)) ^ gamma *
        Real.log (clipByValue (sigmoid b) focalEpsilon (1 - focalEpsilon)) := by
  unfold focalElem
  simp

/-- The elementwise focal loss at a positive label, `from_logits = false`. -/
theorem focalElem_one_false (gamma alpha b : ℝ) :
    focalElem gamma alpha false 1 b =
      -alpha * (1 - clipByValue b focalEpsilon (1 - focalEpsilon)) ^ gamma *
        Real.log (clipByValue b focalEpsilon (1 - focalEpsilon)) := by
  unfold focalElem
  simp

/-- C4 counterexample: at `x = [0]`, `y = [1]` and the default `gamma`,
`alpha`, passing the already-sigmoided input with `from_logits = True` does
not give the same focal loss as passing it with `from_logits = False`: the
`True` path applies the sigmoid a second time, moving the probability from
`1/2` to `sigmoid (1/2) > 1/2` and strictly decreasing the loss. -/
theorem focal_loss_from_logits_not_invariant :
    focal_loss [1] (List.map sigmoid [0]) 1.5 0.25 true ≠
      focal_loss [1] (List.map sigmoid [0]) 1.5 0.25 false := by
  have hs1 := sigmoid_half_bounds.1
  have hs2 := sigmoid_half_bounds.2
  have hmap : List.map sigmoid [(0 : ℝ)] = [1 / 2] := by
    rw [List.map_singleton, sigmoid_zero]
  have ht : focal_loss [1] [(1 : ℝ) / 2] 1.5 0.25 true =
      0.25 * ((1 - sigmoid (1 / 2)) ^ (1.5 : ℝ) * (-Real.log (sigmoid (1 / 2)))) := by
    rw [focal_loss_singleton, focalElem_one_true, clip_sigmoid_half]
    ring
  have hf : focal_loss [1] [(1 : ℝ) / 2] 1.5 0.25 false =
      0.25 * ((1 - 1 / 2) ^ (1.5 : ℝ) * (-Real.log (1 / 2))) := by
    rw [focal_loss_singleton, focalElem_one_false, clip_half]
    ring
  have ha : (1 - sigmoid (1 / 2)) ^ (1.5 : ℝ) < (1 - 1 / 2) ^ (1.5 : ℝ) :=
    Real.rpow_lt_rpow (by linarith) (by linarith) (by norm_num)
  have hb1 : (0 : ℝ) < -Real.log (sigmoid (1 / 2)) := by
    have h := Real.log_neg (show (0 : ℝ) < sigmoid (1 / 2) by linarith)
      (show sigmoid (1 / 2) < 1 by linarith)
    linarith
  have hb : -Real.log (sigmoid (1 / 2)) < -Real.log (1 / 2) := by
    have := Real.log_lt_log (show (0 : ℝ) < 1 / 2 by norm_num) hs1
    linarith
  have hanneg : (0 : ℝ) ≤ (1 - sigmoid (1 / 2)) ^ (1.5 : ℝ) :=
    Real.rpow_nonneg (by linarith) _
  have key : (1 - sigmoid (1 / 2)) ^ (1.5 : ℝ) * (-Real.log (sigmoid (1 / 2))) <
      (1 - 1 / 2) ^ (1.5 : ℝ) * (-Real.log (1 / 2)) :=
    mul_lt_mul'' ha hb hanneg (le_of_lt hb1)
  rw [hmap, ht, hf]
  exact ne_of_lt (mul_lt_mul_of_pos_left key (by norm_num))

/-- C4 amended: the focal loss is invariant to the `from_logits` flag when the
*raw logits* are passed with `from_logits = True` and their sigmoid with
`from_logits = False`: `focal_loss(y, x, gamma, alpha, True) =
focal_loss(y, sigmoid(x), gamma, alpha, False)`. -/
theorem focal_loss_logits_invariance (y x : T1) (gamma alpha : ℝ) :
    focal_loss y x gamma alpha true = focal_loss y (x.map sigmoid) gamma alpha false := by
  unfold focal_loss
  rw [List.zip_map_right, List.map_map]
  rfl

end

end EffDet
